import Mathlib

/-!
Verification of the telegram escrow bot (src/main.py and src/main_v2.py)
against its natural-language specification.

The embedding models the trade store (a MongoDB collection of trade
documents) as a list of `Trade` records, `find_one({"trade_id": tid})`
as first-match lookup and `update_one({"trade_id": tid}, {"$set": ...})`
as an update of the first matching record.  Each bot handler that touches
trade state is translated into an executable Lean function; handlers that
span two Telegram updates (a command that checks a guard and stores a
session key, followed by a later message that performs the write) are
modelled as two separate functions, exactly as the source splits them.
-/

namespace Escrow

/-- A trade document, restricted to the fields the verified claims touch
(`trade_id`, `seller_id`, `buyer_id`, `status`, `dispute_status`,
`payment_proof_url`), as inserted by `confirmation_handler` in both
source files. -/
structure Trade where
  trade_id : String
  seller_id : Nat
  buyer_id : Nat
  status : String
  dispute_status : String
  payment_proof_url : Option String
  deriving DecidableEq

/-- The trades collection. -/
abbrev DB := List Trade

/-- `trades_collection.find_one({"trade_id": tid})`: first document whose
`trade_id` matches. -/
def findTrade : DB → String → Option Trade
  | [], _ => none
  | t :: ts, tid => if t.trade_id = tid then some t else findTrade ts tid

/-- `trades_collection.update_one({"trade_id": tid}, {"$set": ...})`:
apply `f` to the first document whose `trade_id` matches. -/
def updateFirst : DB → String → (Trade → Trade) → DB
  | [], _, _ => []
  | t :: ts, tid, f => if t.trade_id = tid then f t :: ts else t :: updateFirst ts tid f

/-- `find_one({"trade_id": tid, "buyer_id": uid})` used by main.py's
`handle_buyer_approval`. -/
def findTradeBuyer : DB → String → Nat → Option Trade
  | [], _, _ => none
  | t :: ts, tid, uid =>
    if t.trade_id = tid ∧ t.buyer_id = uid then some t else findTradeBuyer ts tid uid

/-! ### Trade-identifier generation (both files, `confirmation_handler`)

`count = trades_collection.count_documents({}) + 1` followed by
`f"TEB-{count:05d}"`.  Decimal digit rendering and zero padding are
defined from first principles so the format string is modelled exactly. -/

/-- The ASCII digit character for `d` (`0 ≤ d ≤ 9`). -/
def digitChar (d : Nat) : Char := Char.ofNat (48 + d)

/-- Decimal digits, fuel-driven so that the kernel can evaluate it; the
fuel is never exhausted when it starts at the number itself. -/
def natDigitsF : Nat → Nat → List Char
  | _, 0 => []
  | 0, _ + 1 => []
  | f + 1, n + 1 => natDigitsF f ((n + 1) / 10) ++ [digitChar ((n + 1) % 10)]

/-- Decimal digits of `n`, most significant first; empty for `0`. -/
def natDigits (n : Nat) : List Char := natDigitsF n n

/-- Decimal rendering of `n` as Python's `str`, i.e. `"0"` for zero. -/
def decChars (n : Nat) : List Char := if n = 0 then ['0'] else natDigits n

/-- Python's `f"{n:05d}"`: left-pad the decimal rendering with zeros to
width 5. -/
def pad5Chars (n : Nat) : List Char :=
  List.replicate (5 - (decChars n).length) '0' ++ decChars n

/-- `f"TEB-{n:05d}"`. -/
def mkTradeId (n : Nat) : String := String.mk (['T', 'E', 'B', '-'] ++ pad5Chars n)

/-- The identifier generated for a new trade:
`count_documents({}) + 1` rendered through the format string. -/
def genTradeId (db : DB) : String := mkTradeId (db.length + 1)

/-- The trade document inserted by `confirmation_handler` (fields the
claims touch): status `pending_buyer_approval`, dispute status `none`,
no payment proof. -/
def newTrade (tid : String) (seller buyer : Nat) : Trade :=
  { trade_id := tid, seller_id := seller, buyer_id := buyer,
    status := "pending_buyer_approval", dispute_status := "none",
    payment_proof_url := none }

/-- The `confirm_trade` branch of `confirmation_handler`: compute the id
from the current count and insert the document. -/
def createTrade (seller buyer : Nat) (db : DB) : DB :=
  db ++ [newTrade (genTradeId db) seller buyer]

/-- Sequential (non-interleaved) trade creations, one per
(seller, buyer) pair. -/
def seqCreates : List (Nat × Nat) → DB → DB
  | [], db => db
  | (s, b) :: ps, db => seqCreates ps (createTrade s b db)

/-- The common shape of the single-call guarded handlers:
`find_one({"trade_id": tid})`, a precondition check on the returned
document, then one `update_one` keyed by `trade_id` applying `f`. -/
def guardedSet (pre : Trade → Bool) (tid : String) (f : Trade → Trade) (db : DB) : DB × Bool :=
  match findTrade db tid with
  | none => (db, false)
  | some t => if pre t then (updateFirst db tid f, true) else (db, false)

/-- The status recorded for `tid`. -/
def statusOf (db : DB) (tid : String) : Option String := (findTrade db tid).map Trade.status

/-- Decimal decoding of a character list (accumulator form); inverse of
`natDigits` used to prove identifiers injective. -/
def decodeAux (a : Nat) : List Char → Nat
  | [] => a
  | c :: cs => decodeAux (a * 10 + (c.toNat - 48)) cs

end Escrow

namespace Escrow.mainV2

/-! ### main_v2.py handlers

Each handler is `find_one` followed by role/status checks and then an
unconditional `update_one` keyed only by `trade_id`.  The read phase is
exposed separately (`...Guard`) from the write phase (`...Write`) because
the source performs them as two separate storage calls. -/

/-- Read phase of `approve_trade`: trade exists, caller is the buyer,
status is `pending_buyer_approval`. -/
def approveGuard (uid : Nat) (tid : String) (db : DB) : Bool :=
  match findTrade db tid with
  | none => false
  | some t => decide (t.buyer_id = uid ∧ t.status = "pending_buyer_approval")

/-- Write phase of `approve_trade`: `update_one` setting status
`approved`, keyed only by `trade_id`. -/
def approveWrite (tid : String) (db : DB) : DB :=
  updateFirst db tid (fun t => { t with status := "approved" })

/-- `approve_trade`: guard then write; `true` when the transition was
applied. -/
def approve_trade (uid : Nat) (tid : String) (db : DB) : DB × Bool :=
  if approveGuard uid tid db then (approveWrite tid db, true) else (db, false)

/-- Read phase of `reject_trade` (same guard as approval). -/
def rejectGuard (uid : Nat) (tid : String) (db : DB) : Bool :=
  match findTrade db tid with
  | none => false
  | some t => decide (t.buyer_id = uid ∧ t.status = "pending_buyer_approval")

/-- Write phase of `reject_trade`: sets status `rejected`. -/
def rejectWrite (tid : String) (db : DB) : DB :=
  updateFirst db tid (fun t => { t with status := "rejected" })

/-- `reject_trade`. -/
def reject_trade (uid : Nat) (tid : String) (db : DB) : DB × Bool :=
  if rejectGuard uid tid db then (rejectWrite tid db, true) else (db, false)

/-- `/submit_payment_proof <tid>` (conversation entry): guard that the
caller is the buyer and status is `approved`; on success it only stores
the trade id in the conversation session. -/
def submit_payment_proof_command (uid : Nat) (tid : String) (db : DB) : Option String :=
  match findTrade db tid with
  | none => none
  | some t => if t.buyer_id = uid ∧ t.status = "approved" then some tid else none

/-- `receive_payment_proof` (conversation second step): writes the proof
and status `payment_pending` for the session's trade id without
re-checking the status. -/
def receive_payment_proof (session : Option String) (proof : String) (db : DB) : DB × Bool :=
  match session with
  | none => (db, false)
  | some tid =>
    (updateFirst db tid
      (fun t => { t with status := "payment_pending", payment_proof_url := some proof }), true)

/-- `/verify_payment` (admin): status `payment_pending` and a proof on
file; sets `payment_verified`. -/
def verify_payment (admins : List Nat) (uid : Nat) (tid : String) (db : DB) : DB × Bool :=
  if uid ∈ admins then
    guardedSet (fun t => decide (t.status = "payment_pending" ∧ t.payment_proof_url ≠ none))
      tid (fun t => { t with status := "payment_verified" }) db
  else (db, false)

/-- `/reject_payment` (admin): status `payment_pending`; sets
`payment_failed`. -/
def reject_payment (admins : List Nat) (uid : Nat) (tid : String) (db : DB) : DB × Bool :=
  if uid ∈ admins then
    guardedSet (fun t => decide (t.status = "payment_pending"))
      tid (fun t => { t with status := "payment_failed" }) db
  else (db, false)

/-- `/force_release` (admin): status `payment_verified`; sets
`asset_released`. -/
def force_release (admins : List Nat) (uid : Nat) (tid : String) (db : DB) : DB × Bool :=
  if uid ∈ admins then
    guardedSet (fun t => decide (t.status = "payment_verified"))
      tid (fun t => { t with status := "asset_released" }) db
  else (db, false)

/-- `/release_asset` (seller): status `payment_verified`; sets
`asset_released`. -/
def release_asset (uid : Nat) (tid : String) (db : DB) : DB × Bool :=
  guardedSet (fun t => decide (t.seller_id = uid ∧ t.status = "payment_verified"))
    tid (fun t => { t with status := "asset_released" }) db

/-- `/confirm_receipt` (buyer): status `asset_released`; sets
`completed`. -/
def confirm_receipt (uid : Nat) (tid : String) (db : DB) : DB × Bool :=
  guardedSet (fun t => decide (t.buyer_id = uid ∧ t.status = "asset_released"))
    tid (fun t => { t with status := "completed" }) db

/-- The status list in `refund_command`'s guard (main_v2.py line 908). -/
def refundEligible : List String :=
  ["payment_pending", "payment_verified", "asset_released", "dispute_raised"]

/-- `/refund <tid>` (conversation entry): caller is a participant and the
status is in `refundEligible`; on success it only stores the trade id in
the conversation session. -/
def refund_command (uid : Nat) (tid : String) (db : DB) : Option String :=
  match findTrade db tid with
  | none => none
  | some t =>
    if (t.buyer_id = uid ∨ t.seller_id = uid) ∧ t.status ∈ refundEligible then some tid
    else none

/-- `refund_reason_input` (conversation second step): writes status
`refund_initiated` for the session's trade id without re-checking the
status. -/
def refund_reason_input (session : Option String) (db : DB) : DB × Bool :=
  match session with
  | none => (db, false)
  | some tid =>
    (updateFirst db tid (fun t => { t with status := "refund_initiated" }), true)

/-- `/process_refund` (admin): status `refund_initiated`; sets
`refund_processed`. -/
def process_refund (admins : List Nat) (uid : Nat) (tid : String) (db : DB) : DB × Bool :=
  if uid ∈ admins then
    guardedSet (fun t => decide (t.status = "refund_initiated"))
      tid (fun t => { t with status := "refund_processed" }) db
  else (db, false)

/-- `/resolve_dispute <tid> <resolution>` (admin): the resolution word
must be `completed` or `refunded`; the trade's dispute status must be
`raised`; one `update_one` then sets the status chosen by the admin and
`dispute_status = "resolved"` together. -/
def resolve_dispute (admins : List Nat) (uid : Nat) (tid : String) (res : String)
    (db : DB) : DB × Bool :=
  if uid ∈ admins ∧ (res = "completed" ∨ res = "refunded") then
    guardedSet (fun t => decide (t.dispute_status = "raised")) tid
      (fun t =>
        { t with
          status := if res = "completed" then "completed" else "refund_initiated",
          dispute_status := "resolved" }) db
  else (db, false)

/-- The single-call guarded handlers of main_v2.py, as one operation
type (the two-step conversations are modelled separately above). -/
inductive V2Op where
  | approve (uid : Nat) (tid : String)
  | reject (uid : Nat) (tid : String)
  | verifyPayment (admins : List Nat) (uid : Nat) (tid : String)
  | rejectPayment (admins : List Nat) (uid : Nat) (tid : String)
  | forceRelease (admins : List Nat) (uid : Nat) (tid : String)
  | releaseAsset (uid : Nat) (tid : String)
  | confirmReceipt (uid : Nat) (tid : String)
  | processRefund (admins : List Nat) (uid : Nat) (tid : String)
  | resolveDispute (admins : List Nat) (uid : Nat) (tid : String) (res : String)

/-- The trade id an operation addresses. -/
def V2Op.target : V2Op → String
  | .approve _ tid => tid
  | .reject _ tid => tid
  | .verifyPayment _ _ tid => tid
  | .rejectPayment _ _ tid => tid
  | .forceRelease _ _ tid => tid
  | .releaseAsset _ tid => tid
  | .confirmReceipt _ tid => tid
  | .processRefund _ _ tid => tid
  | .resolveDispute _ _ tid _ => tid

/-- Run a guarded handler against the store. -/
def runOp : V2Op → DB → DB × Bool
  | .approve uid tid, db => approve_trade uid tid db
  | .reject uid tid, db => reject_trade uid tid db
  | .verifyPayment admins uid tid, db => verify_payment admins uid tid db
  | .rejectPayment admins uid tid, db => reject_payment admins uid tid db
  | .forceRelease admins uid tid, db => force_release admins uid tid db
  | .releaseAsset uid tid, db => release_asset uid tid db
  | .confirmReceipt uid tid, db => confirm_receipt uid tid db
  | .processRefund admins uid tid, db => process_refund admins uid tid db
  | .resolveDispute admins uid tid res, db => resolve_dispute admins uid tid res db

end Escrow.mainV2

namespace Escrow.mainPy

/-! ### main.py handlers

The first version of the bot.  Same storage model; the status strings it
writes differ from main_v2.py. -/

/-- `handle_buyer_approval`: `find_one({"trade_id": tid, "buyer_id": uid})`,
status must be `pending_buyer_approval`; the `approve` branch sets status
`pending_payment`, the `reject` branch sets `cancelled`. -/
def handle_buyer_approval (action : String) (uid : Nat) (tid : String) (db : DB) : DB × Bool :=
  match findTradeBuyer db tid uid with
  | none => (db, false)
  | some t =>
    if t.status = "pending_buyer_approval" then
      if action = "approve" then
        (updateFirst db tid (fun t => { t with status := "pending_payment" }), true)
      else if action = "reject" then
        (updateFirst db tid (fun t => { t with status := "cancelled" }), true)
      else (db, false)
    else (db, false)

/-- `/verify_payment` (admin): status must be
`payment_awaiting_verification`; sets `payment_verified`. -/
def verify_payment (admins : List Nat) (uid : Nat) (tid : String) (db : DB) : DB × Bool :=
  if uid ∈ admins then
    match findTrade db tid with
    | none => (db, false)
    | some t =>
      if t.status = "payment_awaiting_verification" then
        (updateFirst db tid (fun t => { t with status := "payment_verified" }), true)
      else (db, false)
  else (db, false)

/-- `/force_release` (admin): status `payment_verified`; sets
`completed`. -/
def force_release (admins : List Nat) (uid : Nat) (tid : String) (db : DB) : DB × Bool :=
  if uid ∈ admins then
    match findTrade db tid with
    | none => (db, false)
    | some t =>
      if t.status = "payment_verified" then
        (updateFirst db tid (fun t => { t with status := "completed" }), true)
      else (db, false)
  else (db, false)

/-- `/resolve_dispute <tid>` (admin): rejected only when
`dispute_status = "none"`; otherwise one `update_one` sets
`dispute_status = "resolved"` and `status = "dispute_resolved"`. -/
def resolve_dispute (admins : List Nat) (uid : Nat) (tid : String) (db : DB) : DB × Bool :=
  if uid ∈ admins then
    match findTrade db tid with
    | none => (db, false)
    | some t =>
      if t.dispute_status = "none" then (db, false)
      else
        (updateFirst db tid
          (fun t => { t with dispute_status := "resolved", status := "dispute_resolved" }), true)
  else (db, false)

/-- Guard of `/refund <tid>` (conversation entry): caller is a
participant and status is `payment_verified` or `dispute_resolved`
(main.py line 648). -/
def refundGuard (uid : Nat) (tid : String) (db : DB) : Bool :=
  match findTrade db tid with
  | none => false
  | some t =>
    decide ((t.buyer_id = uid ∨ t.seller_id = uid) ∧
      (t.status = "payment_verified" ∨ t.status = "dispute_resolved"))

/-- `refund_reason` (conversation second step): re-reads the trade, and —
when the original verified payment record is on file, modelled by the
oracle `paymentFound` since the payments collection is out of this
embedding's scope — writes status `refund_initiated` without re-checking
the trade status. -/
def refund_reason (tid : String) (paymentFound : Bool) (db : DB) : DB × Bool :=
  match findTrade db tid with
  | none => (db, false)
  | some _ =>
    if paymentFound then
      (updateFirst db tid (fun t => { t with status := "refund_initiated" }), true)
    else (db, false)

/-- `/verify_refund` (admin): status `refund_initiated` and a pending
refund record on file (oracle `refundFound`); sets `refunded`. -/
def verify_refund (admins : List Nat) (uid : Nat) (tid : String) (refundFound : Bool)
    (db : DB) : DB × Bool :=
  if uid ∈ admins then
    match findTrade db tid with
    | none => (db, false)
    | some t =>
      if t.status = "refund_initiated" ∧ refundFound then
        (updateFirst db tid (fun t => { t with status := "refunded" }), true)
      else (db, false)
  else (db, false)

/-- Every status string main.py's handlers ever write. -/
def writtenStatuses : List String :=
  ["pending_buyer_approval", "pending_payment", "cancelled", "payment_verified",
   "completed", "dispute_resolved", "refund_initiated", "refunded"]

/-- Trade stores reachable from an empty collection using only main.py's
own handlers (creation plus every status-writing handler, over arbitrary
actors, arguments and payment-record oracles). -/
inductive Reach : DB → Prop where
  | nil : Reach []
  | create (s b : Nat) {db : DB} : Reach db → Reach (createTrade s b db)
  | approval (a : String) (uid : Nat) (tid : String) {db : DB} :
      Reach db → Reach (handle_buyer_approval a uid tid db).1
  | verifyPay (admins : List Nat) (uid : Nat) (tid : String) {db : DB} :
      Reach db → Reach (verify_payment admins uid tid db).1
  | forceRel (admins : List Nat) (uid : Nat) (tid : String) {db : DB} :
      Reach db → Reach (force_release admins uid tid db).1
  | resolveDisp (admins : List Nat) (uid : Nat) (tid : String) {db : DB} :
      Reach db → Reach (resolve_dispute admins uid tid db).1
  | refundWrite (tid : String) (pf : Bool) {db : DB} :
      Reach db → Reach (refund_reason tid pf db).1
  | verifyRef (admins : List Nat) (uid : Nat) (tid : String) (rf : Bool) {db : DB} :
      Reach db → Reach (verify_refund admins uid tid rf db).1

/-- `/dashboard`: `count_documents({"status": "payment_awaiting_verification", ...})`
(the date window is dropped since counting a superset suffices for the
claim that the count is zero). -/
def pendingVerificationCount (db : DB) : Nat :=
  (db.filter (fun t => t.status = "payment_awaiting_verification")).length

end Escrow.mainPy

namespace Escrow

/-! ### The specification's transition graph (spec §4.1)

Used to compare the code's transitions against the spec's table. -/

/-- The closed state set of spec §4.1 (`dispute_raised` is listed there
as an orthogonal flag, not a status by itself). -/
def specStates : List String :=
  ["pending_buyer_approval", "approved", "rejected", "payment_pending",
   "payment_verified", "payment_failed", "asset_released", "completed",
   "refund_initiated", "refund_processed", "canceled"]

/-- The plain (status, status) edges of the spec's transition table. -/
def specPlainEdges : List (String × String) :=
  [("pending_buyer_approval", "approved"),
   ("pending_buyer_approval", "rejected"),
   ("pending_buyer_approval", "canceled"),
   ("approved", "payment_pending"),
   ("payment_pending", "payment_verified"),
   ("payment_pending", "payment_failed"),
   ("payment_verified", "asset_released"),
   ("asset_released", "completed"),
   ("payment_pending", "refund_initiated"),
   ("payment_verified", "refund_initiated"),
   ("asset_released", "refund_initiated"),
   ("refund_initiated", "refund_processed")]

/-- A status change from `s` (with dispute flag `d`) to `s2` follows an
edge of the spec's table: either a plain edge, or a dispute-gated edge
(`RequestRefund` with `disputeStatus = raised`, or `ResolveDispute`,
whose `from` is the dispute flag rather than a status). -/
def specEdgeOK (s d s2 : String) : Bool :=
  decide ((s, s2) ∈ specPlainEdges) ||
    (decide (d = "raised") &&
      decide (s2 = "completed" ∨ s2 = "refund_initiated"))

/-! ### Python float semantics for the price input

`price_input` in both files runs `float(update.message.text)` and rejects
the value when `price_val <= 0` (retrying the prompt), accepting it
otherwise.  `PyFloat` models the float domain with exact rational finite
values plus the special values; `pyFloatOfString` models `float()` on the
grammar `[sign] (digits [. digits] | . digits | nan | inf | infinity)`
(case-insensitive, no surrounding whitespace, exponents not modelled). -/

/-- A Python float value.  A finite value is the exact rational
`num / den`; parsing always produces `den` as the positive power of ten
`10 ^ (number of fraction digits)`. -/
inductive PyFloat where
  | finite (num : Int) (den : Nat)
  | nan
  | inf
  | ninf
  deriving DecidableEq

/-- Python's `v <= 0.0` (false for NaN; for a finite `num / den` with
positive `den` the comparison is decided by the numerator's sign). -/
def pyLeZero : PyFloat → Bool
  | .finite num _ => decide (num ≤ 0)
  | .nan => false
  | .inf => false
  | .ninf => true

/-- Python's `v > 0.0` (false for NaN). -/
def pyGtZero : PyFloat → Bool
  | .finite num _ => decide (0 < num)
  | .nan => false
  | .inf => true
  | .ninf => false

/-- ASCII decimal digit test. -/
def isDigitCh (c : Char) : Bool := decide ('0' ≤ c ∧ c ≤ '9')

/-- Decimal part of a float literal (`digits`, `digits.digits`,
`digits.` or `.digits`) as an exact (numerator, denominator) pair with
the denominator `10 ^ (number of fraction digits)`. -/
def parseDec (l : List Char) : Option (Nat × Nat) :=
  let intPart := l.takeWhile isDigitCh
  let rest := l.dropWhile isDigitCh
  match rest with
  | [] => if intPart = [] then none else some (decodeAux 0 intPart, 1)
  | '.' :: frac =>
    if frac.all isDigitCh ∧ ¬(intPart = [] ∧ frac = []) then
      some (decodeAux 0 intPart * 10 ^ frac.length + decodeAux 0 frac, 10 ^ frac.length)
    else none
  | _ => none

/-- Unsigned body of a float literal, including the special tokens. -/
def parseBody (neg : Bool) (l : List Char) : Option PyFloat :=
  let low := l.map Char.toLower
  if low = ['n', 'a', 'n'] then some .nan
  else if low = ['i', 'n', 'f'] ∨ low = ['i', 'n', 'f', 'i', 'n', 'i', 't', 'y'] then
    some (if neg then .ninf else .inf)
  else
    match parseDec l with
    | some (v, d) => some (.finite (if neg then -(v : Int) else (v : Int)) d)
    | none => none

/-- `float(s)` on the modelled grammar. -/
def pyFloatOfString (s : String) : Option PyFloat :=
  match s.data with
  | '+' :: r => parseBody false r
  | '-' :: r => parseBody true r
  | r => parseBody false r

/-- The acceptance decision of `price_input` (both files): the text must
parse as a float and `price_val <= 0` must be false; on acceptance the
value is stored as the trade's price, otherwise the handler re-prompts
and no trade is created with that input. -/
def price_input (s : String) : Bool :=
  match pyFloatOfString s with
  | none => false
  | some v => !pyLeZero v

/-! ### Fee calculation

`counterparty_id` (both files) computes
`fee_amount = round(price_val * 0.025, 2)` on IEEE-754 binary64 floats:
`price_val` is `float(text)`, `0.025` is the double nearest 1/40, the
product is a double multiplication, and Python's `round` rounds the
exact value of that double to two decimal places with ties to even.
The model computes this pipeline exactly: doubles are represented by
the rationals they denote, and each step rounds to the 53-bit binary64
grid (ties to even).  The exponent range is unbounded — overflow and
subnormal thresholds lie far outside the magnitudes a fee computation
meets — and the final two-decimal result is reported as the exact value
`cents / 100` (the program stores the double nearest to it, which
prints and compares as the same two-decimal literal). -/

/-- Round a rational to the nearest integer, ties to even (Python's
`round` rule, and the binary64 significand rounding rule). -/
def halfEvenRound (q : ℚ) : ℤ :=
  if q - ⌊q⌋ < 1 / 2 then ⌊q⌋
  else if 1 / 2 < q - ⌊q⌋ then ⌊q⌋ + 1
  else if ⌊q⌋ % 2 = 0 then ⌊q⌋ else ⌊q⌋ + 1

/-- Binary digit count, fuel-driven so that the kernel can evaluate it:
`bitlenF n n` is 0 for `n = 0` and `⌊log2 n⌋ + 1` otherwise. -/
def bitlenF : Nat → Nat → Nat
  | _, 0 => 0
  | 0, _ + 1 => 0
  | f + 1, n + 1 => bitlenF f ((n + 1) / 2) + 1

/-- Number of binary digits of `n` (0 for 0). -/
def bitlen (n : Nat) : Nat := bitlenF n n

/-- `⌊log2 q⌋` for a positive rational, from the digit counts of its
numerator and denominator. -/
def qLog2 (q : ℚ) : ℤ :=
  if (2 : ℚ) ^ ((bitlen q.num.natAbs : ℤ) - (bitlen q.den : ℤ)) ≤ q then
    (bitlen q.num.natAbs : ℤ) - (bitlen q.den : ℤ)
  else (bitlen q.num.natAbs : ℤ) - (bitlen q.den : ℤ) - 1

/-- Round `q` to the grid of multiples of `2 ^ e`, ties to even. -/
def roundAtExp (q : ℚ) (e : ℤ) : ℚ := (halfEvenRound (q / 2 ^ e) : ℚ) * 2 ^ e

/-- The IEEE-754 binary64 value nearest `q` (53-bit significand, round
to nearest with ties to even, unbounded exponent range). -/
def fl2 (q : ℚ) : ℚ :=
  if q = 0 then 0
  else if 0 < q then roundAtExp q (qLog2 q - 52)
  else -roundAtExp (-q) (qLog2 (-q) - 52)

/-- `round(price_val * 0.025, 2)` as the program computes it: the price
text's value as a double, times the double nearest `0.025`, multiplied
in binary64, then rounded to two decimals on the exact value of the
resulting double, ties to even. -/
def fee (price : ℚ) : ℚ :=
  (halfEvenRound (fl2 (fl2 price * fl2 (25 / 1000)) * 100) : ℚ) / 100

/-- Round a rational to the nearest integer, ties away from zero.
Modelled from the spec's words: the rounding rule §4.3 prescribes
("round-half-away-from-zero"), stated here only to compare against the
code's rule. -/
def specHalfAwayRound (q : ℚ) : ℤ :=
  if 0 ≤ q then ⌊q + 1 / 2⌋ else -⌊-q + 1 / 2⌋

/-- Modelled from the spec: the fee function §4.3 describes, 2.5% rounded
to two decimals half-away-from-zero. -/
def specFee (price : ℚ) : ℚ := (specHalfAwayRound (price * 5 / 2) : ℚ) / 100

/-! ### The trade-creation conversation

The `/trade` ConversationHandler (identical in both files): category →
description → price → currency → payment method → deadline →
counterparty → confirmation.  Only the control flow and the fields the
claims touch (initiator, resolved buyer, price acceptance) are modelled;
free-text fields that are merely stored are elided.  Counterparty
resolution through the users collection is abstracted as the
already-resolved `Option Nat` the directory lookup produces. -/

/-- The ConversationHandler state for `/trade`. -/
inductive ConvStage where
  | idle
  | category
  | description
  | price
  | currency
  | payMethod
  | deadline
  | counterparty
  | confirm
  deriving DecidableEq

/-- `context.user_data` for the creation flow: the fields the claims
touch. -/
structure ConvState where
  stage : ConvStage
  initiator : Nat
  buyer : Nat
  deriving DecidableEq

/-- One inbound Telegram update during the creation flow. -/
inductive ConvIn where
  | startTrade (uid : Nat)
  | chooseCategory
  | giveDescription
  | givePrice (s : String)
  | giveCurrency
  | choosePayMethod
  | giveDeadline (future : Bool)
  | giveCounterparty (resolved : Option Nat)
  | confirmTrade
  | cancelConv
  deriving DecidableEq

/-- One step of the creation conversation.  `price_input` re-prompts on a
rejected price; `counterparty_id` re-prompts when the reference does not
resolve or resolves to the initiator (`buyer_id ==
context.user_data["trade_initiator_id"]`); `confirmation_handler` inserts
the trade document; `/cancel` ends the conversation without inserting. -/
def convStep (c : ConvState) (i : ConvIn) (db : DB) : ConvState × DB :=
  match c.stage, i with
  | .idle, .startTrade uid => ({ c with stage := .category, initiator := uid }, db)
  | .category, .chooseCategory => ({ c with stage := .description }, db)
  | .description, .giveDescription => ({ c with stage := .price }, db)
  | .price, .givePrice s =>
    (if price_input s then { c with stage := .currency } else c, db)
  | .currency, .giveCurrency => ({ c with stage := .payMethod }, db)
  | .payMethod, .choosePayMethod => ({ c with stage := .deadline }, db)
  | .deadline, .giveDeadline future =>
    (if future then { c with stage := .counterparty } else c, db)
  | .counterparty, .giveCounterparty resolved =>
    match resolved with
    | none => (c, db)
    | some b =>
      (if b = c.initiator then c else { c with stage := .confirm, buyer := b }, db)
  | .confirm, .confirmTrade =>
    ({ c with stage := .idle }, db ++ [newTrade (genTradeId db) c.initiator c.buyer])
  | _, .cancelConv => ({ c with stage := .idle }, db)
  | _, _ => (c, db)

/-- Conversation-and-store configurations reachable from a fresh bot
(no conversation, empty store) through the creation flow. -/
inductive ConvReach : ConvState → DB → Prop where
  | init : ConvReach ⟨.idle, 0, 0⟩ []
  | step (i : ConvIn) {c : ConvState} {db : DB} :
      ConvReach c db → ConvReach (convStep c i db).1 (convStep c i db).2

/-- Run a list of conversation inputs in order. -/
def runConv : List ConvIn → ConvState × DB → ConvState × DB
  | [], s => s
  | i :: is, s => runConv is (convStep s.1 i s.2)

/-- A complete creation conversation: seller 1, price text "3", future
deadline, counterparty resolving to 2, confirmed. -/
def convTrace : List ConvIn :=
  [ConvIn.startTrade 1, ConvIn.chooseCategory, ConvIn.giveDescription,
   ConvIn.givePrice "3", ConvIn.giveCurrency, ConvIn.choosePayMethod,
   ConvIn.giveDeadline true, ConvIn.giveCounterparty (some 2), ConvIn.confirmTrade]

/-! ### Concrete stores and traces used by the concrete theorems -/

/-- A store holding one trade awaiting buyer approval (seller 1,
buyer 2). -/
def pendingDb : DB :=
  [{ trade_id := "TEB-00001", seller_id := 1, buyer_id := 2,
     status := "pending_buyer_approval", dispute_status := "none",
     payment_proof_url := none }]

/-- The trade of `pendingDb`. -/
def pendingTrade : Trade :=
  { trade_id := "TEB-00001", seller_id := 1, buyer_id := 2,
    status := "pending_buyer_approval", dispute_status := "none",
    payment_proof_url := none }

/-- Two trades created concurrently: both creations read the trade count
against the same (empty) store snapshot before either insert, as nothing
in `confirmation_handler` prevents. -/
def raceT1 : Trade := newTrade (genTradeId []) 1 2

/-- Second concurrently-created trade (different parties). -/
def raceT2 : Trade := newTrade (genTradeId []) 3 4

/-- A trade with its dispute flag raised. -/
def disputedDb : DB :=
  [{ trade_id := "TEB-00001", seller_id := 1, buyer_id := 2,
     status := "payment_verified", dispute_status := "raised",
     payment_proof_url := none }]

/-- A trade whose dispute was already resolved. -/
def resolvedDb : DB :=
  [{ trade_id := "TEB-00002", seller_id := 1, buyer_id := 2,
     status := "payment_verified", dispute_status := "resolved",
     payment_proof_url := none }]

/-- A trade in main.py's `dispute_resolved` status. -/
def disputeResolvedTrade : Trade :=
  { trade_id := "TEB-00001", seller_id := 1, buyer_id := 2,
    status := "dispute_resolved", dispute_status := "resolved",
    payment_proof_url := none }

/-! A main_v2.py run reaching `refund_processed` while a second refund
conversation, legitimately opened by the buyer when the trade was still
`payment_verified`, is still awaiting its reason text. -/

/-- Seller 1 creates a trade with buyer 2. -/
def traceDb0 : DB := createTrade 1 2 []

/-- Buyer approves. -/
def traceDb1 : DB := (mainV2.approve_trade 2 "TEB-00001" traceDb0).1

/-- Buyer submits payment proof (entry guard passed while `approved`). -/
def traceDb2 : DB :=
  (mainV2.receive_payment_proof
    (mainV2.submit_payment_proof_command 2 "TEB-00001" traceDb1) "https://proof" traceDb1).1

/-- Admin 99 verifies the payment. -/
def traceDb3 : DB := (mainV2.verify_payment [99] 99 "TEB-00001" traceDb2).1

/-- The buyer's refund session, opened while the trade is
`payment_verified`. -/
def traceBuyerSession : Option String := mainV2.refund_command 2 "TEB-00001" traceDb3

/-- The seller's refund session, opened in the same state. -/
def traceSellerSession : Option String := mainV2.refund_command 1 "TEB-00001" traceDb3

/-- The seller's reason text arrives: the trade becomes
`refund_initiated`. -/
def traceDb4 : DB := (mainV2.refund_reason_input traceSellerSession traceDb3).1

/-- Admin 99 processes the refund: `refund_processed`. -/
def traceDb5 : DB := (mainV2.process_refund [99] 99 "TEB-00001" traceDb4).1

/-- The buyer's pending reason text arrives afterwards. -/
def traceDb6 : DB := (mainV2.refund_reason_input traceBuyerSession traceDb5).1

/-- `pendingDb` after the buyer's approval in main_v2.py. -/
def approvedDb : DB :=
  [{ trade_id := "TEB-00001", seller_id := 1, buyer_id := 2,
     status := "approved", dispute_status := "none", payment_proof_url := none }]

/-- The trade of `disputedDb`. -/
def disputedTrade : Trade :=
  { trade_id := "TEB-00001", seller_id := 1, buyer_id := 2,
    status := "payment_verified", dispute_status := "raised",
    payment_proof_url := none }

/-- `disputedDb` after `/resolve_dispute TEB-00001 refunded`. -/
def refundResolvedDb : DB :=
  [{ trade_id := "TEB-00001", seller_id := 1, buyer_id := 2,
     status := "refund_initiated", dispute_status := "resolved",
     payment_proof_url := none }]

/-- The trade of `refundResolvedDb`. -/
def refundResolvedTrade : Trade :=
  { trade_id := "TEB-00001", seller_id := 1, buyer_id := 2,
    status := "refund_initiated", dispute_status := "resolved",
    payment_proof_url := none }

/-- The trade of `traceDb5`. -/
def processedTrade : Trade :=
  { trade_id := "TEB-00001", seller_id := 1, buyer_id := 2,
    status := "refund_processed", dispute_status := "none",
    payment_proof_url := some "https://proof" }

/-- A trade in main.py's `dispute_resolved` status (store form). -/
def disputeResolvedDb : DB := [disputeResolvedTrade]

end Escrow

namespace Escrow

/-! ### Storage lemmas -/

/-- Looking up the updated id after `updateFirst` sees the update, for
updates that do not touch the id (all of the bot's `$set` payloads). -/
theorem findTrade_updateFirst (db : DB) (tid : String) (f : Trade → Trade)
    (hf : ∀ t, (f t).trade_id = t.trade_id) :
    findTrade (updateFirst db tid f) tid = (findTrade db tid).map f := by
  induction db with
  | nil => rfl
  | cons t ts ih =>
    by_cases h : t.trade_id = tid
    · simp [findTrade, updateFirst, h, hf]
    · simp [findTrade, updateFirst, h, ih]

/-- A document of the updated store is either an untouched original or
the image of an original under the update. -/
theorem mem_updateFirst {t2 : Trade} {db : DB} {tid : String} {f : Trade → Trade}
    (h : t2 ∈ updateFirst db tid f) : t2 ∈ db ∨ ∃ t ∈ db, t2 = f t := by
  induction db with
  | nil => simp [updateFirst] at h
  | cons t ts ih =>
    by_cases ht : t.trade_id = tid
    · simp only [updateFirst, if_pos ht, List.mem_cons] at h
      rcases h with h | h
      · exact Or.inr ⟨t, List.mem_cons_self t ts, h⟩
      · exact Or.inl (List.mem_cons_of_mem t h)
    · simp only [updateFirst, if_neg ht, List.mem_cons] at h
      rcases h with h | h
      · exact Or.inl (h ▸ List.mem_cons_self t ts)
      · rcases ih h with h2 | ⟨t0, ht0, h2⟩
        · exact Or.inl (List.mem_cons_of_mem t h2)
        · exact Or.inr ⟨t0, List.mem_cons_of_mem t ht0, h2⟩

/-! ### Identifier arithmetic -/

/-- The fuel argument of `natDigitsF` is irrelevant once it covers the
number. -/
theorem natDigitsF_fuel (n : Nat) : ∀ {f g : Nat}, n ≤ f → n ≤ g →
    natDigitsF f n = natDigitsF g n := by
  induction n using Nat.strong_induction_on with
  | _ n ih =>
    intro f g hf hg
    cases n with
    | zero => cases f <;> cases g <;> rfl
    | succ m =>
      obtain ⟨f2, rfl⟩ : ∃ f2, f = f2 + 1 := ⟨f - 1, by omega⟩
      obtain ⟨g2, rfl⟩ : ∃ g2, g = g2 + 1 := ⟨g - 1, by omega⟩
      have hq : (m + 1) / 10 < m + 1 := Nat.div_lt_self (Nat.succ_pos m) (by norm_num)
      simp only [natDigitsF]
      congr 1
      exact ih _ hq (by omega) (by omega)

/-- Unfolding rule for `natDigits` on a positive number. -/
theorem natDigits_succ (n : Nat) :
    natDigits (n + 1) = natDigits ((n + 1) / 10) ++ [digitChar ((n + 1) % 10)] := by
  have hq : (n + 1) / 10 ≤ n := by
    have := Nat.div_lt_self (Nat.succ_pos n) (show 1 < 10 by norm_num)
    omega
  show natDigitsF (n + 1) (n + 1) = natDigitsF ((n + 1) / 10) ((n + 1) / 10) ++ _
  simp only [natDigitsF]
  congr 1
  exact natDigitsF_fuel _ hq (le_refl _)

/-- Code point of a digit character. -/
theorem digitChar_toNat {d : Nat} (h : d < 10) : (digitChar d).toNat = 48 + d := by
  interval_cases d <;> rfl

theorem decodeAux_append (a : Nat) (l1 l2 : List Char) :
    decodeAux a (l1 ++ l2) = decodeAux (decodeAux a l1) l2 := by
  induction l1 generalizing a with
  | nil => rfl
  | cons c cs ih => exact ih _

/-- Decoding inverts digit rendering (accumulator form). -/
theorem decodeAux_natDigits (n : Nat) :
    ∀ a, decodeAux a (natDigits n) = a * 10 ^ (natDigits n).length + n := by
  induction n using Nat.strong_induction_on with
  | _ n ih =>
    intro a
    cases n with
    | zero =>
      show (a : Nat) = a * 10 ^ (natDigits 0).length + 0
      norm_num [natDigits, natDigitsF]
    | succ m =>
      have hq : (m + 1) / 10 < m + 1 := Nat.div_lt_self (Nat.succ_pos m) (by norm_num)
      have hr : (m + 1) % 10 < 10 := Nat.mod_lt _ (by norm_num)
      rw [natDigits_succ, decodeAux_append, ih _ hq]
      have hd : ∀ b : Nat, decodeAux b [digitChar ((m + 1) % 10)] = b * 10 + (m + 1) % 10 := by
        intro b
        show decodeAux (b * 10 + ((digitChar ((m + 1) % 10)).toNat - 48)) [] = _
        rw [digitChar_toNat hr]
        show b * 10 + (48 + (m + 1) % 10 - 48) = _
        omega
      rw [hd, List.length_append, List.length_singleton]
      calc (a * 10 ^ (natDigits ((m + 1) / 10)).length + (m + 1) / 10) * 10 + (m + 1) % 10
          = a * (10 ^ (natDigits ((m + 1) / 10)).length * 10) +
            (10 * ((m + 1) / 10) + (m + 1) % 10) := by ring
        _ = a * 10 ^ ((natDigits ((m + 1) / 10)).length + 1) + (m + 1) := by
            rw [Nat.div_add_mod (m + 1) 10, pow_succ]

theorem decodeAux_replicate (k : Nat) : ∀ a, decodeAux a (List.replicate k '0') = a * 10 ^ k := by
  induction k with
  | zero =>
    intro a
    show (a : Nat) = a * 10 ^ 0
    simp
  | succ k ih =>
    intro a
    show decodeAux (a * 10 + ('0'.toNat - 48)) (List.replicate k '0') = a * 10 ^ (k + 1)
    have h0 : '0'.toNat - 48 = 0 := rfl
    rw [h0, Nat.add_zero, ih]
    ring

/-- Decoding a zero-padded rendering recovers the number. -/
theorem decode_pad5 (n : Nat) : decodeAux 0 (pad5Chars n) = n := by
  unfold pad5Chars
  rw [decodeAux_append, decodeAux_replicate]
  simp only [Nat.zero_mul]
  unfold decChars
  by_cases h : n = 0
  · subst h; rfl
  · rw [if_neg h, decodeAux_natDigits]
    simp

/-- Distinct counts render to distinct trade identifiers. -/
theorem mkTradeId_inj {m n : Nat} (h : mkTradeId m = mkTradeId n) : m = n := by
  unfold mkTradeId at h
  have h2 : ['T', 'E', 'B', '-'] ++ pad5Chars m = ['T', 'E', 'B', '-'] ++ pad5Chars n := by
    injection h
  have h3 : pad5Chars m = pad5Chars n := by simpa using h2
  calc m = decodeAux 0 (pad5Chars m) := (decode_pad5 m).symm
    _ = decodeAux 0 (pad5Chars n) := by rw [h3]
    _ = n := decode_pad5 n

/-! ### Guarded-update lemmas -/

/-- What a successful guarded update tells us: the found document passed
the precondition, and the looked-up result afterwards is its image under
the update. -/
theorem guardedSet_success {pre : Trade → Bool} {tid : String} {f : Trade → Trade}
    {db : DB} {t t2 : Trade}
    (ht : findTrade db tid = some t)
    (hrun : (guardedSet pre tid f db).2 = true)
    (ht2 : findTrade (guardedSet pre tid f db).1 tid = some t2)
    (hf : ∀ u, (f u).trade_id = u.trade_id) :
    pre t = true ∧ t2 = f t := by
  simp only [guardedSet, ht] at hrun ht2
  by_cases hp : pre t = true
  · refine ⟨hp, ?_⟩
    rw [if_pos hp] at ht2
    rw [findTrade_updateFirst db tid f hf, ht] at ht2
    simp only [Option.map_some'] at ht2
    exact (Option.some.inj ht2).symm
  · rw [if_neg hp] at hrun
    simp at hrun

/-- A guarded update whose precondition fails leaves the store unchanged
and reports failure. -/
theorem guardedSet_failure {pre : Trade → Bool} {tid : String} {f : Trade → Trade}
    {db : DB} {t : Trade}
    (ht : findTrade db tid = some t) (hp : pre t = false) :
    guardedSet pre tid f db = (db, false) := by
  simp [guardedSet, ht, hp]

/-- Lookup commutes with a per-document map that keeps ids. -/
theorem findTrade_map (g : Trade → Trade) (db : DB) (tid : String)
    (hg : ∀ u, (g u).trade_id = u.trade_id) :
    findTrade (db.map g) tid = (findTrade db tid).map g := by
  induction db with
  | nil => rfl
  | cons t ts ih =>
    by_cases h : t.trade_id = tid
    · simp [findTrade, hg, h]
    · simp [findTrade, hg, h, ih]

/-- A plain table edge satisfies `specEdgeOK`. -/
theorem specEdgeOK_of_plain {s s2 : String} (d : String)
    (h : (s, s2) ∈ specPlainEdges) : specEdgeOK s d s2 = true := by
  unfold specEdgeOK
  rw [Bool.or_eq_true, decide_eq_true_eq]
  exact Or.inl h

/-- A dispute-gated edge satisfies `specEdgeOK`. -/
theorem specEdgeOK_of_dispute {s d s2 : String} (hd : d = "raised")
    (h2 : s2 = "completed" ∨ s2 = "refund_initiated") : specEdgeOK s d s2 = true := by
  unfold specEdgeOK
  rw [Bool.or_eq_true]
  right
  rw [Bool.and_eq_true, decide_eq_true_eq, decide_eq_true_eq]
  exact ⟨hd, h2⟩

/-! ### Claim C2 -/

/-- C2 (counterexample): `approve_trade` and `reject_trade` in
main_v2.py each perform `find_one` and then a separate `update_one`
keyed only by the trade id.  Racing them on the same trade in
`pending_buyer_approval`, both read phases observe the precondition true
against the same store snapshot, then both writes apply: the approve
transition is applied and silently overwritten by reject while both
handlers report success — refuting both "at most one succeeds" and "the
operation never performs a read-modify-write across two separate storage
calls". -/
theorem C2_counterexample :
    mainV2.approveGuard 2 "TEB-00001" pendingDb = true ∧
    mainV2.rejectGuard 2 "TEB-00001" pendingDb = true ∧
    statusOf (mainV2.approveWrite "TEB-00001" pendingDb) "TEB-00001" = some "approved" ∧
    statusOf (mainV2.rejectWrite "TEB-00001" (mainV2.approveWrite "TEB-00001" pendingDb))
      "TEB-00001" = some "rejected" := by decide

/-- C2 (amended): only when the two handlers run without interleaving
does at most one succeed: after a completed `approve_trade`, the
persisted status is `approved` and a subsequent `reject_trade` (or a
second `approve_trade`) observes its precondition false, changes nothing
and reports failure. -/
theorem C2_amended (u1 u2 : Nat) (tid : String) (db db2 : DB)
    (h : mainV2.approve_trade u1 tid db = (db2, true)) :
    statusOf db2 tid = some "approved" ∧
    mainV2.reject_trade u2 tid db2 = (db2, false) ∧
    mainV2.approve_trade u2 tid db2 = (db2, false) := by
  unfold mainV2.approve_trade at h
  by_cases hg : mainV2.approveGuard u1 tid db = true
  · rw [if_pos hg] at h
    have hdb : db2 = mainV2.approveWrite tid db := (congrArg Prod.fst h).symm
    subst hdb
    unfold mainV2.approveGuard at hg
    rcases hf : findTrade db tid with _ | t
    · rw [hf] at hg; simp at hg
    · rw [hf] at hg
      rw [decide_eq_true_eq] at hg
      have hfind : findTrade (mainV2.approveWrite tid db) tid =
          some { t with status := "approved" } := by
        unfold mainV2.approveWrite
        rw [findTrade_updateFirst db tid (fun u => { u with status := "approved" })
          (fun u => rfl), hf]
        rfl
      refine ⟨?_, ?_, ?_⟩
      · unfold statusOf
        rw [hfind]
        rfl
      · unfold mainV2.reject_trade mainV2.rejectGuard
        rw [hfind]
        simp
      · unfold mainV2.approve_trade mainV2.approveGuard
        rw [hfind]
        simp
  · rw [if_neg hg] at h
    exact absurd (congrArg Prod.snd h) (by simp)

/-- C2 (witness): the amended theorem at the concrete one-trade store. -/
theorem C2_amended_witness :
    statusOf approvedDb "TEB-00001" = some "approved" ∧
    mainV2.reject_trade 7 "TEB-00001" approvedDb = (approvedDb, false) ∧
    mainV2.approve_trade 7 "TEB-00001" approvedDb = (approvedDb, false) :=
  C2_amended 2 7 "TEB-00001" pendingDb approvedDb (by decide)

/-! ### Claim C3 -/

/-- C3 (counterexample): trade-identifier generation is
`count_documents({}) + 1`; two creations whose count reads both happen
against the same (empty) store snapshot — which nothing in
`confirmation_handler` prevents under concurrency — produce the same
identifier `TEB-00001` for two distinct trades. -/
theorem C3_counterexample :
    raceT1.trade_id = "TEB-00001" ∧ raceT2.trade_id = "TEB-00001" ∧ raceT1 ≠ raceT2 := by
  decide

/-- Sequential creations keep the store's identifiers equal to the
count-indexed rendering. -/
theorem seqCreates_ids (ps : List (Nat × Nat)) :
    ∀ db : DB, db.map Trade.trade_id = (List.range db.length).map (fun i => mkTradeId (i + 1)) →
      (seqCreates ps db).map Trade.trade_id =
        (List.range (seqCreates ps db).length).map (fun i => mkTradeId (i + 1)) := by
  induction ps with
  | nil => intro db h; exact h
  | cons p ps ih =>
    intro db h
    obtain ⟨s, b⟩ := p
    show (seqCreates ps (createTrade s b db)).map Trade.trade_id = _
    apply ih
    unfold createTrade genTradeId
    rw [List.map_append, List.length_append, h]
    simp [newTrade, List.range_succ]

/-- C3 (amended): only sequential (non-interleaved) creations are
guaranteed distinct identifiers: in any sequential execution, where each
creation's count read immediately precedes its insert, the generated
identifiers are pairwise distinct and never reused. -/
theorem C3_amended (ps : List (Nat × Nat)) :
    ((seqCreates ps []).map Trade.trade_id).Nodup := by
  rw [seqCreates_ids ps [] (by simp)]
  refine List.Nodup.map ?_ (List.nodup_range _)
  intro a b hab
  have := mkTradeId_inj hab
  omega

/-! ### Claim C4 -/

/-- C4 (counterexample): main.py's `/resolve_dispute` succeeds on a
dispute-raised trade but writes status `dispute_resolved` — neither
`completed` nor `refund_initiated`, and reflecting no admin decision (the
handler takes none) — and it also succeeds on a trade whose dispute is
already `resolved`, since its guard only excludes `none`. -/
theorem C4_counterexample :
    (mainPy.resolve_dispute [99] 99 "TEB-00001" disputedDb).2 = true ∧
    statusOf (mainPy.resolve_dispute [99] 99 "TEB-00001" disputedDb).1 "TEB-00001" =
      some "dispute_resolved" ∧
    "dispute_resolved" ≠ "completed" ∧ "dispute_resolved" ≠ "refund_initiated" ∧
    (mainPy.resolve_dispute [99] 99 "TEB-00002" resolvedDb).2 = true := by decide

/-- C4 (amended): in main_v2.py the claim holds: `resolve_dispute`
succeeds only when the dispute flag is `raised` and the admin passed an
explicit outcome, and its single update sets `disputeStatus = resolved`
together with the status the outcome dictates (`completed` or
`refund_initiated`); main.py's version instead accepts any non-`none`
dispute flag and always writes `dispute_resolved`. -/
theorem C4_amended (admins : List Nat) (uid : Nat) (tid res : String) (db db2 : DB)
    (t t2 : Trade)
    (hrun : mainV2.resolve_dispute admins uid tid res db = (db2, true))
    (ht : findTrade db tid = some t) (ht2 : findTrade db2 tid = some t2) :
    t.dispute_status = "raised" ∧ (res = "completed" ∨ res = "refunded") ∧
    t2.dispute_status = "resolved" ∧
    ((res = "completed" ∧ t2.status = "completed") ∨
      (res = "refunded" ∧ t2.status = "refund_initiated")) := by
  have h2 : (mainV2.resolve_dispute admins uid tid res db).2 = true := by rw [hrun]
  have h1 : (mainV2.resolve_dispute admins uid tid res db).1 = db2 := by rw [hrun]
  rw [← h1] at ht2
  unfold mainV2.resolve_dispute at h2 ht2
  by_cases hc : uid ∈ admins ∧ (res = "completed" ∨ res = "refunded")
  · rw [if_pos hc] at h2 ht2
    obtain ⟨hpre, rfl⟩ := guardedSet_success ht h2 ht2 (fun u => rfl)
    rw [decide_eq_true_eq] at hpre
    refine ⟨hpre, hc.2, rfl, ?_⟩
    rcases hc.2 with hres | hres
    · exact Or.inl ⟨hres, by simp [hres]⟩
    · refine Or.inr ⟨hres, ?_⟩
      have hne : ¬res = "completed" := by rw [hres]; decide
      simp [hne]
  · rw [if_neg hc] at h2
    simp at h2

/-- C4 (witness): the amended theorem at the concrete disputed store,
outcome `refunded`. -/
theorem C4_amended_witness :
    disputedTrade.dispute_status = "raised" ∧
    (("refunded" : String) = "completed" ∨ ("refunded" : String) = "refunded") ∧
    refundResolvedTrade.dispute_status = "resolved" ∧
    ((("refunded" : String) = "completed" ∧ refundResolvedTrade.status = "completed") ∨
      (("refunded" : String) = "refunded" ∧ refundResolvedTrade.status = "refund_initiated")) :=
  C4_amended [99] 99 "TEB-00001" "refunded" disputedDb refundResolvedDb
    disputedTrade refundResolvedTrade (by decide) (by decide) (by decide)

/-! ### Claim C5 -/

/-- C5 (counterexample): a main_v2.py run in which the trade reaches
`refund_processed`, yet a subsequent operation still changes its status:
a `/refund` conversation legitimately opened by the buyer while the
trade was `payment_verified` delivers its reason text after the admin
has already processed the seller's refund, and `refund_reason_input`
writes `refund_initiated` over the terminal status without re-checking
it — refuting "every subsequent operation leaves the status unchanged
and is rejected". -/
theorem C5_counterexample :
    statusOf traceDb5 "TEB-00001" = some "refund_processed" ∧
    traceBuyerSession = some "TEB-00001" ∧
    (mainV2.refund_reason_input traceBuyerSession traceDb5).2 = true ∧
    statusOf traceDb6 "TEB-00001" = some "refund_initiated" := by decide

/-- C5 (amended): every single-call guarded handler of main_v2.py is
rejected and leaves the store unchanged when the target trade is
`refund_processed` (provided its dispute flag is not `raised` — which no
main_v2.py code path ever sets); the `/submit_payment_proof` and
`/refund` conversation entries are likewise rejected.  In particular a
second `/process_refund` is rejected.  Only a refund conversation opened
before the refund was processed can still overwrite the status, as
`C5_counterexample` shows. -/
theorem C5_amended (op : mainV2.V2Op) (uid : Nat) (db : DB) (t : Trade)
    (ht : findTrade db op.target = some t)
    (hs : t.status = "refund_processed")
    (hd : t.dispute_status ≠ "raised") :
    mainV2.runOp op db = (db, false) ∧
    mainV2.submit_payment_proof_command uid op.target db = none ∧
    mainV2.refund_command uid op.target db = none := by
  refine ⟨?_, ?_, ?_⟩
  case refine_2 => simp [mainV2.submit_payment_proof_command, ht, hs]
  case refine_3 => simp [mainV2.refund_command, mainV2.refundEligible, ht, hs]
  case refine_1 =>
    cases op with
    | approve u tid =>
      simp only [mainV2.V2Op.target] at ht
      simp [mainV2.runOp, mainV2.approve_trade, mainV2.approveGuard, ht, hs]
    | reject u tid =>
      simp only [mainV2.V2Op.target] at ht
      simp [mainV2.runOp, mainV2.reject_trade, mainV2.rejectGuard, ht, hs]
    | verifyPayment admins u tid =>
      simp only [mainV2.V2Op.target] at ht
      by_cases ha : u ∈ admins
      · simp only [mainV2.runOp, mainV2.verify_payment, if_pos ha]
        exact guardedSet_failure ht (by simp [hs])
      · simp [mainV2.runOp, mainV2.verify_payment, ha]
    | rejectPayment admins u tid =>
      simp only [mainV2.V2Op.target] at ht
      by_cases ha : u ∈ admins
      · simp only [mainV2.runOp, mainV2.reject_payment, if_pos ha]
        exact guardedSet_failure ht (by simp [hs])
      · simp [mainV2.runOp, mainV2.reject_payment, ha]
    | forceRelease admins u tid =>
      simp only [mainV2.V2Op.target] at ht
      by_cases ha : u ∈ admins
      · simp only [mainV2.runOp, mainV2.force_release, if_pos ha]
        exact guardedSet_failure ht (by simp [hs])
      · simp [mainV2.runOp, mainV2.force_release, ha]
    | releaseAsset u tid =>
      simp only [mainV2.V2Op.target] at ht
      simp only [mainV2.runOp, mainV2.release_asset]
      exact guardedSet_failure ht (by simp [hs])
    | confirmReceipt u tid =>
      simp only [mainV2.V2Op.target] at ht
      simp only [mainV2.runOp, mainV2.confirm_receipt]
      exact guardedSet_failure ht (by simp [hs])
    | processRefund admins u tid =>
      simp only [mainV2.V2Op.target] at ht
      by_cases ha : u ∈ admins
      · simp only [mainV2.runOp, mainV2.process_refund, if_pos ha]
        exact guardedSet_failure ht (by simp [hs])
      · simp [mainV2.runOp, mainV2.process_refund, ha]
    | resolveDispute admins u tid res =>
      simp only [mainV2.V2Op.target] at ht
      by_cases hc : u ∈ admins ∧ (res = "completed" ∨ res = "refunded")
      · simp only [mainV2.runOp, mainV2.resolve_dispute, if_pos hc]
        exact guardedSet_failure ht (by simp [hd])
      · simp [mainV2.runOp, mainV2.resolve_dispute, hc]

/-- C5 (witness): the amended theorem at the concrete processed trade,
for the second `/process_refund`. -/
theorem C5_amended_witness :
    mainV2.runOp (mainV2.V2Op.processRefund [99] 99 "TEB-00001") traceDb5 =
      (traceDb5, false) ∧
    mainV2.submit_payment_proof_command 2 "TEB-00001" traceDb5 = none ∧
    mainV2.refund_command 2 "TEB-00001" traceDb5 = none :=
  C5_amended (mainV2.V2Op.processRefund [99] 99 "TEB-00001") 2 traceDb5 processedTrade
    (by decide) (by decide) (by decide)

/-! ### Claim C6 -/

/-- C6 (counterexample): main.py's `/refund` guard accepts a trade in
status `dispute_resolved` — a state outside the claim's eligibility set
(`payment_pending`, `payment_verified`, `asset_released`, or dispute
flag `raised`): its dispute flag is `resolved`, not `raised`. -/
theorem C6_counterexample :
    mainPy.refundGuard 2 "TEB-00001" disputeResolvedDb = true ∧
    ¬(disputeResolvedTrade.status = "payment_pending" ∨
      disputeResolvedTrade.status = "payment_verified" ∨
      disputeResolvedTrade.status = "asset_released") ∧
    ¬disputeResolvedTrade.dispute_status = "raised" := by decide

/-- C6 (amended): the two versions use different status-only eligibility
sets and neither consults the dispute flag: main.py accepts exactly a
participant's request on status `payment_verified` or `dispute_resolved`;
main_v2.py accepts exactly a participant's request on status
`payment_pending`, `payment_verified`, `asset_released` or
`dispute_raised` (a status string nothing in main_v2.py ever writes);
changing the dispute flag alone never changes either decision. -/
theorem C6_amended (uid : Nat) (tid : String) (db : DB) :
    (mainPy.refundGuard uid tid db = true ↔
      ∃ t, findTrade db tid = some t ∧ (t.buyer_id = uid ∨ t.seller_id = uid) ∧
        (t.status = "payment_verified" ∨ t.status = "dispute_resolved")) ∧
    (mainV2.refund_command uid tid db = some tid ↔
      ∃ t, findTrade db tid = some t ∧ (t.buyer_id = uid ∨ t.seller_id = uid) ∧
        (t.status = "payment_pending" ∨ t.status = "payment_verified" ∨
          t.status = "asset_released" ∨ t.status = "dispute_raised")) ∧
    (∀ d, mainPy.refundGuard uid tid
        (db.map (fun u => { u with dispute_status := d })) =
      mainPy.refundGuard uid tid db) ∧
    (∀ d, mainV2.refund_command uid tid
        (db.map (fun u => { u with dispute_status := d })) =
      mainV2.refund_command uid tid db) := by
  refine ⟨?_, ?_, ?_, ?_⟩
  · rcases hf : findTrade db tid with _ | t
    · simp [mainPy.refundGuard, hf]
    · simp [mainPy.refundGuard, hf, and_assoc]
  · rcases hf : findTrade db tid with _ | t
    · simp [mainV2.refund_command, hf]
    · by_cases hg : (t.buyer_id = uid ∨ t.seller_id = uid) ∧ t.status ∈ mainV2.refundEligible
      · simp only [mainV2.refund_command, hf, if_pos hg]
        constructor
        · intro _
          refine ⟨t, rfl, hg.1, ?_⟩
          have h2 := hg.2
          simp only [mainV2.refundEligible, List.mem_cons, List.not_mem_nil,
            or_false] at h2
          exact h2
        · intro _; trivial
      · simp only [mainV2.refund_command, hf, if_neg hg]
        constructor
        · intro h; exact absurd h (by simp)
        · rintro ⟨t2, ht2, h1, h2⟩
          obtain rfl := Option.some.inj ht2
          refine absurd ⟨h1, ?_⟩ hg
          simp only [mainV2.refundEligible, List.mem_cons, List.not_mem_nil,
            or_false]
          exact h2
  · intro d
    unfold mainPy.refundGuard
    rw [findTrade_map (fun u => { u with dispute_status := d }) db tid (fun u => rfl)]
    rcases findTrade db tid with _ | t <;> rfl
  · intro d
    unfold mainV2.refund_command
    rw [findTrade_map (fun u => { u with dispute_status := d }) db tid (fun u => rfl)]
    rcases findTrade db tid with _ | t <;> rfl

/-! ### Claim C1 -/

/-- C1 (counterexample): main.py's `handle_buyer_approval` accepts the
buyer's approval of a trade in `pending_buyer_approval` and persists the
status string `pending_payment`, which is not in the spec's closed state
set (`specStates` — the spec's state is spelled `payment_pending`, and
the spec's approve edge ends at `approved`). -/
theorem C1_counterexample :
    (mainPy.handle_buyer_approval "approve" 2 "TEB-00001" pendingDb).2 = true ∧
    statusOf (mainPy.handle_buyer_approval "approve" 2 "TEB-00001" pendingDb).1 "TEB-00001" =
      some "pending_payment" ∧
    "pending_payment" ∉ specStates := by decide

/-- C1 (amended): in main_v2.py (not main.py), every status change
performed by a single-call guarded handler lands in the spec's closed
state set and follows an edge of the spec's transition table; main.py
instead writes status strings outside the set (`pending_payment`,
`cancelled`, `dispute_resolved`, `refunded`), and the conversation
tail-writes of main_v2.py (`receive_payment_proof`,
`refund_reason_input`) are guarded only at conversation entry, so their
edge discipline can be violated by interleaved conversations
(see the C5 counterexample). -/
theorem C1_amended (op : mainV2.V2Op) (db : DB) (t t2 : Trade)
    (hrun : (mainV2.runOp op db).2 = true)
    (ht : findTrade db op.target = some t)
    (ht2 : findTrade (mainV2.runOp op db).1 op.target = some t2) :
    specEdgeOK t.status t.dispute_status t2.status = true ∧ t2.status ∈ specStates := by
  cases op with
  | approve u tid =>
    simp only [mainV2.runOp, mainV2.V2Op.target] at hrun ht ht2
    unfold mainV2.approve_trade at hrun ht2
    by_cases hg : mainV2.approveGuard u tid db = true
    · rw [if_pos hg] at ht2
      unfold mainV2.approveGuard at hg
      rw [ht, decide_eq_true_eq] at hg
      unfold mainV2.approveWrite at ht2
      rw [findTrade_updateFirst db tid (fun u => { u with status := "approved" })
        (fun u => rfl), ht, Option.map_some'] at ht2
      obtain rfl := Option.some.inj ht2
      refine ⟨?_, by show ("approved" : String) ∈ specStates; decide⟩
      apply specEdgeOK_of_plain
      rw [hg.2]
      show ("pending_buyer_approval", "approved") ∈ specPlainEdges
      decide
    · rw [if_neg hg] at hrun
      simp at hrun
  | reject u tid =>
    simp only [mainV2.runOp, mainV2.V2Op.target] at hrun ht ht2
    unfold mainV2.reject_trade at hrun ht2
    by_cases hg : mainV2.rejectGuard u tid db = true
    · rw [if_pos hg] at ht2
      unfold mainV2.rejectGuard at hg
      rw [ht, decide_eq_true_eq] at hg
      unfold mainV2.rejectWrite at ht2
      rw [findTrade_updateFirst db tid (fun u => { u with status := "rejected" })
        (fun u => rfl), ht, Option.map_some'] at ht2
      obtain rfl := Option.some.inj ht2
      refine ⟨?_, by show ("rejected" : String) ∈ specStates; decide⟩
      apply specEdgeOK_of_plain
      rw [hg.2]
      show ("pending_buyer_approval", "rejected") ∈ specPlainEdges
      decide
    · rw [if_neg hg] at hrun
      simp at hrun
  | verifyPayment admins u tid =>
    simp only [mainV2.runOp, mainV2.V2Op.target] at hrun ht ht2
    unfold mainV2.verify_payment at hrun ht2
    by_cases ha : u ∈ admins
    · rw [if_pos ha] at hrun ht2
      obtain ⟨hpre, rfl⟩ := guardedSet_success ht hrun ht2 (fun u => rfl)
      rw [decide_eq_true_eq] at hpre
      refine ⟨?_, by show ("payment_verified" : String) ∈ specStates; decide⟩
      apply specEdgeOK_of_plain
      rw [hpre.1]
      show ("payment_pending", "payment_verified") ∈ specPlainEdges
      decide
    · rw [if_neg ha] at hrun
      simp at hrun
  | rejectPayment admins u tid =>
    simp only [mainV2.runOp, mainV2.V2Op.target] at hrun ht ht2
    unfold mainV2.reject_payment at hrun ht2
    by_cases ha : u ∈ admins
    · rw [if_pos ha] at hrun ht2
      obtain ⟨hpre, rfl⟩ := guardedSet_success ht hrun ht2 (fun u => rfl)
      rw [decide_eq_true_eq] at hpre
      refine ⟨?_, by show ("payment_failed" : String) ∈ specStates; decide⟩
      apply specEdgeOK_of_plain
      rw [hpre]
      show ("payment_pending", "payment_failed") ∈ specPlainEdges
      decide
    · rw [if_neg ha] at hrun
      simp at hrun
  | forceRelease admins u tid =>
    simp only [mainV2.runOp, mainV2.V2Op.target] at hrun ht ht2
    unfold mainV2.force_release at hrun ht2
    by_cases ha : u ∈ admins
    · rw [if_pos ha] at hrun ht2
      obtain ⟨hpre, rfl⟩ := guardedSet_success ht hrun ht2 (fun u => rfl)
      rw [decide_eq_true_eq] at hpre
      refine ⟨?_, by show ("asset_released" : String) ∈ specStates; decide⟩
      apply specEdgeOK_of_plain
      rw [hpre]
      show ("payment_verified", "asset_released") ∈ specPlainEdges
      decide
    · rw [if_neg ha] at hrun
      simp at hrun
  | releaseAsset u tid =>
    simp only [mainV2.runOp, mainV2.V2Op.target] at hrun ht ht2
    unfold mainV2.release_asset at hrun ht2
    obtain ⟨hpre, rfl⟩ := guardedSet_success ht hrun ht2 (fun u => rfl)
    rw [decide_eq_true_eq] at hpre
    refine ⟨?_, by show ("asset_released" : String) ∈ specStates; decide⟩
    apply specEdgeOK_of_plain
    rw [hpre.2]
    show ("payment_verified", "asset_released") ∈ specPlainEdges
    decide
  | confirmReceipt u tid =>
    simp only [mainV2.runOp, mainV2.V2Op.target] at hrun ht ht2
    unfold mainV2.confirm_receipt at hrun ht2
    obtain ⟨hpre, rfl⟩ := guardedSet_success ht hrun ht2 (fun u => rfl)
    rw [decide_eq_true_eq] at hpre
    refine ⟨?_, by show ("completed" : String) ∈ specStates; decide⟩
    apply specEdgeOK_of_plain
    rw [hpre.2]
    show ("asset_released", "completed") ∈ specPlainEdges
    decide
  | processRefund admins u tid =>
    simp only [mainV2.runOp, mainV2.V2Op.target] at hrun ht ht2
    unfold mainV2.process_refund at hrun ht2
    by_cases ha : u ∈ admins
    · rw [if_pos ha] at hrun ht2
      obtain ⟨hpre, rfl⟩ := guardedSet_success ht hrun ht2 (fun u => rfl)
      rw [decide_eq_true_eq] at hpre
      refine ⟨?_, by show ("refund_processed" : String) ∈ specStates; decide⟩
      apply specEdgeOK_of_plain
      rw [hpre]
      show ("refund_initiated", "refund_processed") ∈ specPlainEdges
      decide
    · rw [if_neg ha] at hrun
      simp at hrun
  | resolveDispute admins u tid res =>
    simp only [mainV2.runOp, mainV2.V2Op.target] at hrun ht ht2
    unfold mainV2.resolve_dispute at hrun ht2
    by_cases hc : u ∈ admins ∧ (res = "completed" ∨ res = "refunded")
    · rw [if_pos hc] at hrun ht2
      obtain ⟨hpre, rfl⟩ := guardedSet_success ht hrun ht2 (fun u => rfl)
      rw [decide_eq_true_eq] at hpre
      by_cases hres : res = "completed"
      · refine ⟨specEdgeOK_of_dispute hpre ?_, ?_⟩
        · show (if res = "completed" then "completed" else "refund_initiated") = "completed" ∨ _
          rw [if_pos hres]
          exact Or.inl rfl
        · show (if res = "completed" then "completed" else "refund_initiated") ∈ specStates
          rw [if_pos hres]
          decide
      · refine ⟨specEdgeOK_of_dispute hpre ?_, ?_⟩
        · show (if res = "completed" then "completed" else "refund_initiated") = "completed" ∨
            (if res = "completed" then "completed" else "refund_initiated") = "refund_initiated"
          rw [if_neg hres]
          exact Or.inr rfl
        · show (if res = "completed" then "completed" else "refund_initiated") ∈ specStates
          rw [if_neg hres]
          decide
    · rw [if_neg hc] at hrun
      simp at hrun

/-- C1 (witness): the amended theorem at a concrete approval. -/
theorem C1_amended_witness :
    specEdgeOK pendingTrade.status pendingTrade.dispute_status "approved" = true ∧
    ("approved" : String) ∈ specStates := by
  have h := C1_amended (mainV2.V2Op.approve 2 "TEB-00001") pendingDb pendingTrade
    { pendingTrade with status := "approved" } (by decide) (by decide) (by decide)
  exact h

/-! ### Claim C7 -/

/-- The creation conversation's invariant: in the confirmation stage the
stored buyer differs from the initiator, and every persisted trade has
distinct buyer and seller. -/
theorem convReach_invariant {c : ConvState} {db : DB} (h : ConvReach c db) :
    (c.stage = ConvStage.confirm → c.buyer ≠ c.initiator) ∧
    (∀ t ∈ db, t.buyer_id ≠ t.seller_id) := by
  induction h with
  | init => exact ⟨by simp, by simp⟩
  | @step i c db hrc ih =>
    obtain ⟨ih1, ih2⟩ := ih
    obtain ⟨st, ini, buy⟩ := c
    cases i with
    | startTrade uid =>
      cases st <;> first | exact ⟨ih1, ih2⟩ | exact ⟨by simp [convStep], ih2⟩
    | chooseCategory =>
      cases st <;> first | exact ⟨ih1, ih2⟩ | exact ⟨by simp [convStep], ih2⟩
    | giveDescription =>
      cases st <;> first | exact ⟨ih1, ih2⟩ | exact ⟨by simp [convStep], ih2⟩
    | givePrice s =>
      cases st
      case price =>
        refine ⟨?_, ih2⟩
        show (if price_input s then
            ({ stage := ConvStage.currency, initiator := ini, buyer := buy } : ConvState)
          else ⟨ConvStage.price, ini, buy⟩).stage = ConvStage.confirm → _
        split_ifs <;> simp
      all_goals exact ⟨ih1, ih2⟩
    | giveCurrency =>
      cases st <;> first | exact ⟨ih1, ih2⟩ | exact ⟨by simp [convStep], ih2⟩
    | choosePayMethod =>
      cases st <;> first | exact ⟨ih1, ih2⟩ | exact ⟨by simp [convStep], ih2⟩
    | giveDeadline future =>
      cases st
      case deadline =>
        refine ⟨?_, ih2⟩
        show (if future then
            ({ stage := ConvStage.counterparty, initiator := ini, buyer := buy } : ConvState)
          else ⟨ConvStage.deadline, ini, buy⟩).stage = ConvStage.confirm → _
        split_ifs <;> simp
      all_goals exact ⟨ih1, ih2⟩
    | giveCounterparty resolved =>
      cases st
      case counterparty =>
        cases resolved with
        | none => exact ⟨ih1, ih2⟩
        | some b =>
          refine ⟨?_, ih2⟩
          have hx : (convStep ⟨ConvStage.counterparty, ini, buy⟩
              (ConvIn.giveCounterparty (some b)) db).1 =
              (if b = ini then (⟨ConvStage.counterparty, ini, buy⟩ : ConvState)
               else { stage := ConvStage.confirm, initiator := ini, buyer := b }) := rfl
          rw [hx]
          by_cases hb : b = ini
          · rw [if_pos hb]
            intro hx2
            cases hx2
          · rw [if_neg hb]
            intro _
            exact hb
      all_goals exact ⟨ih1, ih2⟩
    | confirmTrade =>
      cases st
      case confirm =>
        refine ⟨by simp [convStep], ?_⟩
        intro t ht
        rcases List.mem_append.mp ht with hmem | hmem
        · exact ih2 t hmem
        · obtain rfl := List.mem_singleton.mp hmem
          exact ih1 rfl
      all_goals exact ⟨ih1, ih2⟩
    | cancelConv =>
      cases st <;> exact ⟨by simp [convStep], ih2⟩

/-- Reachability is preserved by running any input list. -/
theorem convReach_runConv (l : List ConvIn) {c : ConvState} {db : DB}
    (h : ConvReach c db) :
    ConvReach (runConv l (c, db)).1 (runConv l (c, db)).2 := by
  induction l generalizing c db with
  | nil => exact h
  | cons i is ih => exact ih (ConvReach.step i h)

/-- C7: a counterparty reference resolving to the initiator is rejected
by the counterparty step (which re-prompts and persists nothing), so the
creation flow only ever reaches confirmation with a distinct buyer, and
every trade it persists satisfies buyer ≠ seller. -/
theorem C7_theorem (c : ConvState) (db : DB) (h : ConvReach c db) :
    (∀ t ∈ db, t.buyer_id ≠ t.seller_id) ∧
    (c.stage = ConvStage.counterparty →
      convStep c (ConvIn.giveCounterparty (some c.initiator)) db = (c, db)) := by
  refine ⟨(convReach_invariant h).2, ?_⟩
  intro hs
  obtain ⟨st, ini, buy⟩ := c
  obtain rfl : st = ConvStage.counterparty := hs
  show ((if ini = ini then (⟨ConvStage.counterparty, ini, buy⟩ : ConvState)
    else { stage := ConvStage.confirm, initiator := ini, buyer := ini }), db) = _
  rw [if_pos rfl]

/-- C7 (witness): running a complete concrete creation conversation, the
persisted trade has buyer 2 and seller 1, which differ. -/
theorem C7_theorem_witness :
    (newTrade (genTradeId []) 1 2).buyer_id ≠ (newTrade (genTradeId []) 1 2).seller_id := by
  have hr := convReach_runConv convTrace ConvReach.init
  exact (C7_theorem _ _ hr).1 (newTrade (genTradeId []) 1 2) (by decide)

/-! ### Claim C8 -/

/-- The fuel argument of `bitlenF` is irrelevant once it covers the
number. -/
theorem bitlenF_fuel (n : Nat) : ∀ {f g : Nat}, n ≤ f → n ≤ g →
    bitlenF f n = bitlenF g n := by
  induction n using Nat.strong_induction_on with
  | _ n ih =>
    intro f g hf hg
    cases n with
    | zero => cases f <;> cases g <;> rfl
    | succ m =>
      obtain ⟨f2, rfl⟩ : ∃ f2, f = f2 + 1 := ⟨f - 1, by omega⟩
      obtain ⟨g2, rfl⟩ : ∃ g2, g = g2 + 1 := ⟨g - 1, by omega⟩
      have hq : (m + 1) / 2 < m + 1 := Nat.div_lt_self (Nat.succ_pos m) (by norm_num)
      simp only [bitlenF]
      congr 1
      exact ih _ hq (by omega) (by omega)

/-- Unfolding rule for `bitlen` on a positive number. -/
theorem bitlen_succ (n : Nat) : bitlen (n + 1) = bitlen ((n + 1) / 2) + 1 := by
  have hq : (n + 1) / 2 ≤ n := by
    have := Nat.div_lt_self (Nat.succ_pos n) (show 1 < 2 by norm_num)
    omega
  show bitlenF (n + 1) (n + 1) = bitlenF ((n + 1) / 2) ((n + 1) / 2) + 1
  simp only [bitlenF]
  congr 1
  exact bitlenF_fuel _ hq (le_refl _)

/-- A positive number has at least one binary digit. -/
theorem bitlen_pos {n : Nat} (h : 1 ≤ n) : 1 ≤ bitlen n := by
  cases n with
  | zero => omega
  | succ m => rw [bitlen_succ]; omega

/-- `bitlen` brackets its argument between consecutive powers of two. -/
theorem bitlen_bounds (n : Nat) (h : 1 ≤ n) :
    2 ^ (bitlen n - 1) ≤ n ∧ n < 2 ^ bitlen n := by
  induction n using Nat.strong_induction_on with
  | _ n ih =>
    cases n with
    | zero => omega
    | succ m =>
      cases m with
      | zero => decide
      | succ k =>
        have hm : 1 ≤ (k + 2) / 2 := by omega
        have hlt : (k + 2) / 2 < k + 2 := by omega
        obtain ⟨ih1, ih2⟩ := ih _ hlt hm
        have hL : 1 ≤ bitlen ((k + 2) / 2) := bitlen_pos hm
        rw [show (k + 1 + 1) = k + 2 from rfl, bitlen_succ (k + 1)]
        have e1 : bitlen ((k + 2) / 2) + 1 - 1 = bitlen ((k + 2) / 2) := by omega
        rw [e1]
        have hP : 2 ^ bitlen ((k + 2) / 2) = 2 * 2 ^ (bitlen ((k + 2) / 2) - 1) := by
          conv_lhs => rw [show bitlen ((k + 2) / 2) = (bitlen ((k + 2) / 2) - 1) + 1 by omega]
          rw [pow_succ]
          ring
        have hQ : 2 ^ (bitlen ((k + 2) / 2) + 1) = 2 * 2 ^ bitlen ((k + 2) / 2) := by
          rw [pow_succ]
          ring
        constructor
        · rw [hP]
          omega
        · rw [hQ]
          omega

/-- Bracketing a quotient of bracketed naturals between powers of two. -/
theorem qLog2_spec_aux (a b la lb : ℕ) (ha1 : 2 ^ (la - 1) ≤ a) (ha2 : a < 2 ^ la)
    (hb1 : 2 ^ (lb - 1) ≤ b) (hb2 : b < 2 ^ lb) (hla : 1 ≤ la) (hlb : 1 ≤ lb)
    (hbpos : 0 < b) :
    (2 : ℚ) ^ ((la : ℤ) - lb - 1) < (a : ℚ) / b ∧
      (a : ℚ) / b < 2 ^ ((la : ℤ) - lb + 1) := by
  have hB : (0 : ℚ) < (b : ℚ) := by exact_mod_cast hbpos
  have ha1q : (2 : ℚ) ^ (la - 1 : ℕ) ≤ (a : ℚ) := by exact_mod_cast ha1
  have ha2q : (a : ℚ) < 2 ^ (la : ℕ) := by exact_mod_cast ha2
  have hb1q : (2 : ℚ) ^ (lb - 1 : ℕ) ≤ (b : ℚ) := by exact_mod_cast hb1
  have hb2q : (b : ℚ) < 2 ^ (lb : ℕ) := by exact_mod_cast hb2
  constructor
  · rw [lt_div_iff₀ hB]
    calc (2 : ℚ) ^ ((la : ℤ) - lb - 1) * (b : ℚ)
        < (2 : ℚ) ^ ((la : ℤ) - lb - 1) * 2 ^ (lb : ℕ) :=
          mul_lt_mul_of_pos_left hb2q (zpow_pos (by norm_num) _)
      _ = (2 : ℚ) ^ (la - 1 : ℕ) := by
          rw [← zpow_natCast (2 : ℚ) lb, ← zpow_add₀ (two_ne_zero : (2 : ℚ) ≠ 0),
            ← zpow_natCast (2 : ℚ) (la - 1)]
          congr 1
          omega
      _ ≤ (a : ℚ) := ha1q
  · rw [div_lt_iff₀ hB]
    calc (a : ℚ) < 2 ^ (la : ℕ) := ha2q
      _ = (2 : ℚ) ^ ((la : ℤ) - lb + 1) * 2 ^ (lb - 1 : ℕ) := by
          rw [← zpow_natCast (2 : ℚ) (lb - 1), ← zpow_add₀ (two_ne_zero : (2 : ℚ) ≠ 0),
            ← zpow_natCast (2 : ℚ) la]
          congr 1
          omega
      _ ≤ (2 : ℚ) ^ ((la : ℤ) - lb + 1) * (b : ℚ) :=
          mul_le_mul_of_nonneg_left hb1q (le_of_lt (zpow_pos (by norm_num) _))

/-- `qLog2` really is the binary order of magnitude. -/
theorem qLog2_spec {q : ℚ} (hq : 0 < q) :
    (2 : ℚ) ^ qLog2 q ≤ q ∧ q < 2 ^ (qLog2 q + 1) := by
  have hnum : 0 < q.num := Rat.num_pos.mpr hq
  have hnum1 : 1 ≤ q.num.natAbs := by omega
  have hden1 : 1 ≤ q.den := q.den_pos
  have hA : ((q.num.natAbs : ℚ)) = (q.num : ℚ) := by
    rw [Int.cast_natAbs]
    exact_mod_cast abs_of_nonneg (le_of_lt hnum)
  have hqeq : q = (q.num.natAbs : ℚ) / (q.den : ℚ) := by rw [hA, Rat.num_div_den]
  obtain ⟨ha1, ha2⟩ := bitlen_bounds _ hnum1
  obtain ⟨hb1, hb2⟩ := bitlen_bounds _ hden1
  obtain ⟨hlow, hupp⟩ := qLog2_spec_aux q.num.natAbs q.den _ _ ha1 ha2 hb1 hb2
    (bitlen_pos hnum1) (bitlen_pos hden1) q.den_pos
  rw [← hqeq] at hlow hupp
  unfold qLog2
  split_ifs with hbr
  · exact ⟨hbr, hupp⟩
  · refine ⟨le_of_lt hlow, ?_⟩
    have h2 : (bitlen q.num.natAbs : ℤ) - (bitlen q.den : ℤ) - 1 + 1 =
        (bitlen q.num.natAbs : ℤ) - (bitlen q.den : ℤ) := by ring
    rw [h2]
    exact lt_of_not_le hbr

/-- The exponent bracketing a positive rational is unique. -/
theorem qLog2_unique (e : ℤ) {q : ℚ} (h1 : (2 : ℚ) ^ e ≤ q) (h2 : q < 2 ^ (e + 1)) :
    qLog2 q = e := by
  have hq : 0 < q := lt_of_lt_of_le (zpow_pos (by norm_num) e) h1
  obtain ⟨g1, g2⟩ := qLog2_spec hq
  by_contra hne
  rcases lt_or_gt_of_ne hne with hlt | hgt
  · have h3 : (2 : ℚ) ^ (qLog2 q + 1) ≤ 2 ^ e :=
      zpow_le_zpow_right₀ (by norm_num) (by omega)
    linarith
  · have h3 : (2 : ℚ) ^ (e + 1) ≤ 2 ^ qLog2 q :=
      zpow_le_zpow_right₀ (by norm_num) (by omega)
    linarith

/-- Evaluation rule for `fl2` once the binary order of magnitude of the
input is known. -/
theorem fl2_eq (e : ℤ) {q : ℚ} (h1 : (2 : ℚ) ^ e ≤ q) (h2 : q < 2 ^ (e + 1)) :
    fl2 q = (halfEvenRound (q / 2 ^ (e - 52)) : ℚ) * 2 ^ (e - 52) := by
  have hq : 0 < q := lt_of_lt_of_le (zpow_pos (by norm_num) e) h1
  unfold fl2
  rw [if_neg (ne_of_gt hq), if_pos hq, qLog2_unique e h1 h2]
  rfl

/-- The double nearest `0.025` (the program's `fee_percentage` literal),
slightly above 1/40. -/
theorem fl2_c : fl2 (25 / 1000) = 3602879701896397 / 2 ^ 57 := by
  rw [fl2_eq (-6) (by norm_num) (by norm_num)]
  norm_num [halfEvenRound]

/-- `round(100.0 * 0.025, 2) = 2.50`: the double product rounds to
exactly 2.5. -/
theorem fee_eval_100 : fee 100 = 5 / 2 := by
  have h1 : fl2 (100 : ℚ) = 100 := by
    rw [fl2_eq 6 (by norm_num) (by norm_num)]
    norm_num [halfEvenRound]
  have h2 : fl2 ((100 : ℚ) * (3602879701896397 / 2 ^ 57)) = 5 / 2 := by
    rw [fl2_eq 1 (by norm_num) (by norm_num)]
    norm_num [halfEvenRound]
  unfold fee
  rw [fl2_c, h1, h2]
  norm_num [halfEvenRound]

/-- `round(33.33 * 0.025, 2) = 0.83`: the double product is just below
0.83325 and rounds down. -/
theorem fee_eval_3333 : fee (3333 / 100) = 83 / 100 := by
  have h1 : fl2 (3333 / 100 : ℚ) = 2345390243441541 / 2 ^ 46 := by
    rw [fl2_eq 5 (by norm_num) (by norm_num)]
    norm_num [halfEvenRound]
  have h2 : fl2 ((2345390243441541 / 2 ^ 46 : ℚ) * (3602879701896397 / 2 ^ 57)) =
      1876312194753233 / 2 ^ 51 := by
    rw [fl2_eq (-1) (by norm_num) (by norm_num)]
    norm_num [halfEvenRound]
  unfold fee
  rw [fl2_c, h1, h2]
  norm_num [halfEvenRound]

/-- `round(5.0 * 0.025, 2) = 0.12`: the double product is exactly 0.125
and the decimal tie goes to the even cent. -/
theorem fee_eval_5 : fee 5 = 12 / 100 := by
  have h1 : fl2 (5 : ℚ) = 5 := by
    rw [fl2_eq 2 (by norm_num) (by norm_num)]
    norm_num [halfEvenRound]
  have h2 : fl2 ((5 : ℚ) * (3602879701896397 / 2 ^ 57)) = 1 / 8 := by
    rw [fl2_eq (-3) (by norm_num) (by norm_num)]
    norm_num [halfEvenRound]
  unfold fee
  rw [fl2_c, h1, h2]
  norm_num [halfEvenRound]

/-- `round(109.0 * 0.025, 2) = 2.73`: the double product lies strictly
above 2.725, so no tie occurs and the fee rounds up (where exact
arithmetic would tie at 272.5 cents and round to the even 2.72). -/
theorem fee_eval_109 : fee 109 = 273 / 100 := by
  have h1 : fl2 (109 : ℚ) = 109 := by
    rw [fl2_eq 6 (by norm_num) (by norm_num)]
    norm_num [halfEvenRound]
  have h2 : fl2 ((109 : ℚ) * (3602879701896397 / 2 ^ 57)) = 6136154492292301 / 2 ^ 51 := by
    rw [fl2_eq 1 (by norm_num) (by norm_num)]
    norm_num [halfEvenRound]
  unfold fee
  rw [fl2_c, h1, h2]
  norm_num [halfEvenRound]

/-- `round(0.2 * 0.025, 2) = 0.01`: the double product lies strictly
above 0.005, so the fee rounds up (where exact arithmetic would tie at
0.5 cents and round to 0.00). -/
theorem fee_eval_fifth : fee (1 / 5) = 1 / 100 := by
  have h1 : fl2 (1 / 5 : ℚ) = 3602879701896397 / 2 ^ 54 := by
    rw [fl2_eq (-3) (by norm_num) (by norm_num)]
    norm_num [halfEvenRound]
  have h2 : fl2 ((3602879701896397 / 2 ^ 54 : ℚ) * (3602879701896397 / 2 ^ 57)) =
      1441151880758559 / 2 ^ 58 := by
    rw [fl2_eq (-8) (by norm_num) (by norm_num)]
    norm_num [halfEvenRound]
  unfold fee
  rw [fl2_c, h1, h2]
  norm_num [halfEvenRound]

/-- `halfEvenRound` is within half of its argument. -/
theorem abs_halfEvenRound_sub (q : ℚ) : |(halfEvenRound q : ℚ) - q| ≤ 1 / 2 := by
  have h0 : (⌊q⌋ : ℚ) ≤ q := Int.floor_le q
  have h1 : q < ⌊q⌋ + 1 := Int.lt_floor_add_one q
  unfold halfEvenRound
  split_ifs with ha hb hc
  all_goals rw [abs_le]
  all_goals constructor
  all_goals push_cast
  all_goals linarith

/-- C8 (counterexample): the program computes the fee in binary64 and
rounds with Python's `round`; at price 5.00 the double product is
exactly 0.125 and the decimal tie resolves to the even cent, giving
0.12, while the claim's round-half-away-from-zero rule yields 0.13. -/
theorem C8_counterexample :
    fee 5 = 12 / 100 ∧ specFee 5 = 13 / 100 ∧ fee 5 ≠ specFee 5 := by
  have hs : specFee 5 = 13 / 100 := by norm_num [specFee, specHalfAwayRound]
  refine ⟨fee_eval_5, hs, ?_⟩
  rw [fee_eval_5, hs]
  norm_num

/-- C8 (amended): the fee is the pure binary64 computation
`round(float(price) * 0.025, 2)` — the price and 0.025 as doubles, a
double multiplication, then Python's `round` on the exact value of the
product double, ties to even.  It is deterministic but follows no exact
decimal rounding rule: fee(100.00) = 2.50 and fee(33.33) = 0.83, yet
fee(109) = 2.73 and fee(0.2) = 0.01 where exact half-even arithmetic
would give 2.72 and 0.00.  The fee is always within half a cent of the
double product (not of the exact 2.5% of the price). -/
theorem C8_amended :
    fee 100 = 5 / 2 ∧ fee (3333 / 100) = 83 / 100 ∧ fee 109 = 273 / 100 ∧
    fee (1 / 5) = 1 / 100 ∧
    ∀ p : ℚ, |fee p - fl2 (fl2 p * fl2 (25 / 1000))| ≤ 1 / 200 := by
  refine ⟨fee_eval_100, fee_eval_3333, fee_eval_109, fee_eval_fifth, ?_⟩
  intro p
  have h := abs_halfEvenRound_sub (fl2 (fl2 p * fl2 (25 / 1000)) * 100)
  have h2 : fee p - fl2 (fl2 p * fl2 (25 / 1000)) =
      ((halfEvenRound (fl2 (fl2 p * fl2 (25 / 1000)) * 100) : ℚ) -
        fl2 (fl2 p * fl2 (25 / 1000)) * 100) / 100 := by
    unfold fee
    ring
  rw [h2, abs_div]
  rw [show |(100 : ℚ)| = 100 from by norm_num]
  linarith

/-! ### Claim C9 -/

/-- C9 (counterexample): Python's `float()` accepts the string `"nan"`,
and `price_input`'s guard `price_val <= 0` is false for NaN, so the
creation flow accepts a price that is not a number strictly greater than
zero. -/
theorem C9_counterexample :
    pyFloatOfString "nan" = some PyFloat.nan ∧
    price_input "nan" = true ∧
    pyGtZero PyFloat.nan = false := by decide

/-- C9 (amended): the price text is accepted exactly when it parses as a
float `v` for which `v <= 0` is false — that is, `v` strictly positive
(including infinity) or `v` NaN; malformed text is rejected, and an
accepted finite price is exactly a strictly positive one (its numerator
over the positive power-of-ten denominator is positive). -/
theorem C9_amended :
    (∀ s : String, price_input s = true ↔
      ∃ v, pyFloatOfString s = some v ∧ (pyGtZero v = true ∨ v = PyFloat.nan)) ∧
    (∀ s : String, pyFloatOfString s = none → price_input s = false) ∧
    (∀ (s : String) (num : Int) (den : Nat),
      pyFloatOfString s = some (PyFloat.finite num den) →
      (price_input s = true ↔ 0 < num)) := by
  refine ⟨?_, ?_, ?_⟩
  · intro s
    unfold price_input
    rcases hp : pyFloatOfString s with _ | v
    · simp
    · rcases v with ⟨n, d⟩ | _ | _ | _ <;> simp [pyLeZero, pyGtZero]
  · intro s h
    unfold price_input
    rw [h]
  · intro s num den h
    unfold price_input
    rw [h]
    simp [pyLeZero]

/-- C9 (witness): the amended theorem at the concrete inputs "abc"
(malformed) and "3" (finite, accepted, positive). -/
theorem C9_amended_witness :
    price_input "abc" = false ∧ (price_input "3" = true ↔ (0 : Int) < 3) :=
  ⟨C9_amended.2.1 "abc" (by decide), C9_amended.2.2 "3" 3 1 (by decide)⟩

/-! ### Claim C10 -/

/-- A found document is a member of the store. -/
theorem findTrade_mem {db : DB} {tid : String} {t : Trade}
    (h : findTrade db tid = some t) : t ∈ db := by
  induction db with
  | nil => simp [findTrade] at h
  | cons u us ih =>
    by_cases hu : u.trade_id = tid
    · simp only [findTrade, if_pos hu, Option.some.injEq] at h
      exact h ▸ List.mem_cons_self u us
    · simp only [findTrade, if_neg hu] at h
      exact List.mem_cons_of_mem u (ih h)

/-- An update whose images stay inside the written-status set preserves
the status invariant. -/
theorem mem_status_update {db : DB} {tid : String} {f : Trade → Trade}
    (ih : ∀ t ∈ db, t.status ∈ mainPy.writtenStatuses)
    (hf : ∀ u, (f u).status ∈ mainPy.writtenStatuses) :
    ∀ t ∈ updateFirst db tid f, t.status ∈ mainPy.writtenStatuses := by
  intro t ht
  rcases mem_updateFirst ht with h | ⟨t0, _, rfl⟩
  · exact ih t h
  · exact hf t0

/-- Status invariant of main.py: every document of a store reachable
through main.py's own handlers has one of the eight statuses those
handlers write. -/
theorem mainPy_statuses {db : DB} (h : mainPy.Reach db) :
    ∀ t ∈ db, t.status ∈ mainPy.writtenStatuses := by
  induction h with
  | nil => simp
  | create s b hr ih =>
    intro t ht
    rcases List.mem_append.mp ht with hm | hm
    · exact ih t hm
    · obtain rfl := List.mem_singleton.mp hm
      show "pending_buyer_approval" ∈ mainPy.writtenStatuses
      decide
  | approval a uid tid hr ih =>
    unfold mainPy.handle_buyer_approval
    rcases h2 : findTradeBuyer _ tid uid with _ | t
    · exact ih
    · dsimp only
      split_ifs <;>
        first
          | exact ih
          | (apply mem_status_update ih
             intro u
             show "pending_payment" ∈ mainPy.writtenStatuses
             decide)
          | (apply mem_status_update ih
             intro u
             show "cancelled" ∈ mainPy.writtenStatuses
             decide)
  | verifyPay admins uid tid hr ih =>
    unfold mainPy.verify_payment
    split_ifs with ha
    · rcases h2 : findTrade _ tid with _ | t
      · exact ih
      · dsimp only
        split_ifs <;>
          first
            | exact ih
            | (apply mem_status_update ih
               intro u
               show "payment_verified" ∈ mainPy.writtenStatuses
               decide)
    · exact ih
  | forceRel admins uid tid hr ih =>
    unfold mainPy.force_release
    split_ifs with ha
    · rcases h2 : findTrade _ tid with _ | t
      · exact ih
      · dsimp only
        split_ifs <;>
          first
            | exact ih
            | (apply mem_status_update ih
               intro u
               show "completed" ∈ mainPy.writtenStatuses
               decide)
    · exact ih
  | resolveDisp admins uid tid hr ih =>
    unfold mainPy.resolve_dispute
    split_ifs with ha
    · rcases h2 : findTrade _ tid with _ | t
      · exact ih
      · dsimp only
        split_ifs <;>
          first
            | exact ih
            | (apply mem_status_update ih
               intro u
               show "dispute_resolved" ∈ mainPy.writtenStatuses
               decide)
    · exact ih
  | refundWrite tid pf hr ih =>
    unfold mainPy.refund_reason
    rcases h2 : findTrade _ tid with _ | t
    · exact ih
    · dsimp only
      split_ifs <;>
        first
          | exact ih
          | (apply mem_status_update ih
             intro u
             show "refund_initiated" ∈ mainPy.writtenStatuses
             decide)
  | verifyRef admins uid tid rf hr ih =>
    unfold mainPy.verify_refund
    split_ifs with ha
    · rcases h2 : findTrade _ tid with _ | t
      · exact ih
      · dsimp only
        split_ifs <;>
          first
            | exact ih
            | (apply mem_status_update ih
               intro u
               show "refunded" ∈ mainPy.writtenStatuses
               decide)
    · exact ih


/-- C10: no main.py handler ever writes the status
`payment_awaiting_verification`, so for every trade store reachable
through main.py's own handlers the success branch of `/verify_payment`
(whose guard requires exactly that status) is unreachable — the command
always fails and leaves the store unchanged — and the dashboard's
pending-payments-verification count is zero. -/
theorem C10_theorem (db : DB) (h : mainPy.Reach db) :
    (∀ admins uid tid, mainPy.verify_payment admins uid tid db = (db, false)) ∧
    mainPy.pendingVerificationCount db = 0 := by
  have hst := mainPy_statuses h
  constructor
  · intro admins uid tid
    unfold mainPy.verify_payment
    split_ifs with ha
    · rcases hf : findTrade db tid with _ | t
      · rfl
      · dsimp only
        have hmem := hst t (findTrade_mem hf)
        have hne : ¬t.status = "payment_awaiting_verification" := by
          intro hcon
          rw [hcon] at hmem
          exact absurd hmem (by decide)
        rw [if_neg hne]
    · rfl
  · unfold mainPy.pendingVerificationCount
    rw [List.length_eq_zero, List.filter_eq_nil_iff]
    intro t ht
    have hmem := hst t ht
    simp only [decide_eq_true_eq]
    intro hcon
    rw [hcon] at hmem
    exact absurd hmem (by decide)

/-- C10 (witness): the theorem at the store holding one freshly created
trade. -/
theorem C10_theorem_witness :
    mainPy.verify_payment [99] 99 "TEB-00001" (createTrade 1 2 []) =
      (createTrade 1 2 [], false) ∧
    mainPy.pendingVerificationCount (createTrade 1 2 []) = 0 :=
  ⟨(C10_theorem _ (mainPy.Reach.create 1 2 mainPy.Reach.nil)).1 [99] 99 "TEB-00001",
   (C10_theorem _ (mainPy.Reach.create 1 2 mainPy.Reach.nil)).2⟩

end Escrow
